import Mathlib

/-!
Shallow embedding of `maestro-ollama-2.py`: a multi-role LLM orchestration
script.  The language-model completion service (`client.chat`) is external;
it is modelled by an oracle, a list (or stream) of response texts consumed in
order.  Console output that matters to the specification (warnings, error
panels) is modelled by an explicit event trace.  Filesystem state is modelled
as a map from paths to directory flags and file contents.

Python string primitives used by the source (`str.strip`, `str.replace`,
substring membership `in`, truthiness of strings and `None`) are embedded
explicitly below with Python's semantics.
-/

set_option maxRecDepth 20000

namespace Maestro

/-- Python `str` whitespace characters (ASCII set used by `str.strip()`). -/
def pyIsSpace (c : Char) : Bool :=
  c = ' ' || c = '\t' || c = '\n' || c = '\r' || c = '\x0b' || c = '\x0c'

/-- `str.strip()` on a character list: drop whitespace from both ends. -/
def stripList (l : List Char) : List Char :=
  ((l.dropWhile pyIsSpace).reverse.dropWhile pyIsSpace).reverse

/-- Python `s.strip()`. -/
def pyStrip (s : String) : String := ⟨stripList s.data⟩

/-- Python substring test `needle in hay`, scanning left to right. -/
def containsSub (needle : List Char) : List Char → Bool
  | [] => needle.isEmpty
  | c :: rest => needle.isPrefixOf (c :: rest) || containsSub needle rest

/-- Structural worker for `pyRemoveAll`: `fuel` only forces termination and
never runs out when it starts at the length of the remaining input, because
every step consumes at least one character. -/
def pyRemoveAllFuel (needle : List Char) : Nat → List Char → List Char
  | 0, l => l
  | _ + 1, [] => []
  | fuel + 1, c :: rest =>
    if needle ≠ [] ∧ needle.isPrefixOf (c :: rest) = true then
      pyRemoveAllFuel needle fuel ((c :: rest).drop needle.length)
    else
      c :: pyRemoveAllFuel needle fuel rest

/-- Python `hay.replace(needle, "")`: remove all occurrences of `needle`,
scanning left to right without rescanning the output (a removal that makes
the two flanks join into a fresh occurrence leaves that occurrence in the
result, exactly as CPython does). -/
def pyRemoveAll (needle : List Char) (hay : List Char) : List Char :=
  pyRemoveAllFuel needle hay.length hay

/-- Python truthiness of an `Optional[str]`: `None` and `""` are falsy. -/
def pyTruthyOptStr : Option String → Bool
  | none => false
  | some s => s != ""

/-- Model identifiers (source: the `MODEL_IDENTIFIERS` dictionary; the call
sites refer to them by the bare names used here). -/
def ORCHESTRATOR_MODEL : String := "llama3:70b-instruct"

/-- Sub-agent model identifier from `MODEL_IDENTIFIERS`. -/
def SUBAGENT_MODEL : String := "llama3:instruct"

/-- Refiner model identifier from `MODEL_IDENTIFIERS`. -/
def REFINER_MODEL : String := "llama3:70b-instruct"

/-- One record of the sub-task executor's own history
(`{"task": ..., "result": ...}` dictionaries in `haiku_tasks`). -/
structure TaskRecord where
  task : String
  result : String
deriving Repr, DecidableEq

/-- Observable side effects of the embedded code: completion-gateway calls,
truncation warnings, filesystem panels and recoverable error reports. -/
inductive Event where
  | chatCall (model : String) (content : String)
  | warnTruncation
  | createdProjectFolder (path : String)
  | createdFolder (path : String)
  | createdFile (path : String)
  | missingCode (filename : String)
  | jsonParseError (msg : String)
  | invalidJsonString (raw : String)
deriving Repr, DecidableEq

/-- Extract the contents of the gateway calls from an event trace. -/
def chatContents : List Event → List String
  | [] => []
  | Event.chatCall _ content :: rest => content :: chatContents rest
  | _ :: rest => chatContents rest

/-- Failure modes of an executor run: the source's
`ValueError("Prompt cannot be empty")`, or the response oracle running dry
(in the source the call would block; a finite oracle cannot answer it). -/
inductive AgentErr where
  | emptyPrompt
  | oracleExhausted
deriving Repr, DecidableEq

/-- Source line 109: the standardized continuation instruction. -/
def continuationPrompt : String :=
  "Continuing from the previous answer, please complete the response."

/-- Source lines 114–116: render the executor's history as
`"Previous Haiku tasks:\n"` followed by `"Task: …\nResult: …"` blocks
joined by newlines. -/
def previousTasksSummary (previous_haiku_tasks : List TaskRecord) : String :=
  "Previous Haiku tasks:\n" ++
    String.intercalate "\n"
      (previous_haiku_tasks.map (fun task => "Task: " ++ task.task ++ "\nResult: " ++ task.result))

/-- Source lines 110–119: the full prompt composed by `haiku_sub_agent`
(after the `continuation` flag has replaced the prompt if set). -/
def haikuFullPrompt (prompt : String) (previous_haiku_tasks : List TaskRecord)
    (continuation : Bool) : String :=
  let prompt := if continuation then continuationPrompt else prompt
  previousTasksSummary previous_haiku_tasks ++ "\n\n" ++ prompt

/-- Source lines 105–141, `haiku_sub_agent`.  The gateway is the `oracle`
list: each `client.chat` call consumes its head.  Returns the response text,
the unconsumed oracle suffix and the event trace.  A response of length at
least 4000 triggers a warning and a recursive continuation call whose result
is concatenated onto the first response. -/
def haiku_sub_agent :
    String → List TaskRecord → Bool → List String →
    Except AgentErr (String × List String × List Event)
  | prompt, previous_haiku_tasks, continuation, oracle =>
    let full_prompt := haikuFullPrompt prompt previous_haiku_tasks continuation
    if pyStrip full_prompt = "" then
      Except.error AgentErr.emptyPrompt
    else
      match oracle with
      | [] => Except.error AgentErr.oracleExhausted
      | response_text :: rest =>
        if response_text.length ≥ 4000 then
          match haiku_sub_agent continuationPrompt previous_haiku_tasks true rest with
          | Except.error e => Except.error e
          | Except.ok (continuation_text, rest', evs) =>
            Except.ok (response_text ++ continuation_text, rest',
              Event.chatCall SUBAGENT_MODEL full_prompt :: Event.warnTruncation :: evs)
        else
          Except.ok (response_text, rest, [Event.chatCall SUBAGENT_MODEL full_prompt])

/-- Source line 153: the refiner request content.  Note that it depends only
on the objective and the sub-task results — the `continuation` parameter of
`opus_refine` is never consulted when building the request. -/
def refinePromptContent (objective : String) (sub_task_results : List String) : String :=
  "Objective: " ++ objective ++ "\n\nSub-task results:\n" ++
    String.intercalate "\n" sub_task_results ++
    "\n\nPlease review and refine the sub-task results into a cohesive final output. Add any missing information or details as needed.\n\nWhen working on code projects, ONLY AND ONLY IF THE PROJECT IS CLEARLY A CODING ONE, please provide the following:\n\n1. Project Name: Create a concise and appropriate project name that fits the project based on what it\x27s creating. The project name should be no more than 20 characters long.\n\n2. Folder Structure: Provide the folder structure as a valid JSON object, where each key represents a folder or file, and nested keys represent subfolders. Use null values for files. Ensure the JSON is properly formatted without any syntax errors. Please make sure all keys are enclosed in double quotes, and ensure objects are correctly encapsulated with braces, separating items with commas as necessary. Wrap the JSON object in <folder_structure> tags.\n\n3. Code Files: For each code file, include ONLY the file name, NEVER EVER USE THE FILE PATH OR ANY OTHER FORMATTING. YOU ONLY USE THE FOLLOWING format \x27Filename: <filename>\x27 followed by the code block enclosed in triple backticks, with the language identifier after the opening backticks, like this:\n\npython\n<code>\n\n\nFocus solely on the objective and avoid engaging in casual conversation. Ensure the final output is clear, concise, and addresses all aspects of the objective.\u200B"

/-- Source lines 144–169, `opus_refine`.  Same continuation-on-truncation
shape as `haiku_sub_agent`; the request content is always
`refinePromptContent objective sub_task_results` — the `continuation`,
`filename` and `projectname` parameters do not influence it. -/
def opus_refine :
    String → List String → String → String → Bool → List String →
    Except AgentErr (String × List String × List Event)
  | objective, sub_task_results, filename, projectname, _continuation, oracle =>
    let content := refinePromptContent objective sub_task_results
    match oracle with
    | [] => Except.error AgentErr.oracleExhausted
    | response_text :: rest =>
      if response_text.length ≥ 4000 then
        match opus_refine objective sub_task_results filename projectname true rest with
        | Except.error e => Except.error e
        | Except.ok (continuation_text, rest', evs) =>
          Except.ok (response_text ++ continuation_text, rest',
            Event.chatCall REFINER_MODEL content :: Event.warnTruncation :: evs)
      else
        Except.ok (response_text, rest, [Event.chatCall REFINER_MODEL content])

/-- Source line 258: the fixed completion marker. -/
def completionMarker : String := "The task is complete:"

/-- Python `"The task is complete:" in s`. -/
def containsMarker (s : String) : Bool := containsSub completionMarker.data s.data

/-- Source line 260: `opus_result.replace("The task is complete:", "").strip()`. -/
def finalOutputOf (opus_result : String) : String :=
  pyStrip ⟨pyRemoveAll completionMarker.data opus_result.data⟩

/-- Source lines 94–102, `generate_ollama_prompt`: the orchestrator request
content, which mentions the file content and appends it whenever the
`file_content` argument is truthy. -/
def generate_ollama_prompt (objective : String) (file_content : Option String)
    (previous_results_text : String) : String :=
  "Based on the following objective" ++
    (if pyTruthyOptStr file_content then " and file content" else "") ++
    ", and the previous sub-task results (if any), please break down the objective into the next sub-task, and create a concise and detailed prompt for a subagent so it can execute that task. Focus solely on the objective and avoid engaging in casual conversation with the subagent.\n\nWhen dealing with code tasks, make sure to check the code for errors and provide fixes and support as part of the next sub-task. If you find any bugs or have suggestions for better code, please include them in the next sub-task prompt.\n\nPlease assess if the objective has been fully achieved. If the previous sub-task results comprehensively address all aspects of the objective, include the phrase \x27The task is complete:\x27 at the beginning of your response. If the objective is not yet fully achieved, break it down into the next sub-task and create a concise and detailed prompt for a subagent to execute that task.\n\nObjective: " ++
    objective ++
    (match file_content with
     | some s => if s != "" then "\nFile content:\n" ++ s else ""
     | none => "") ++
    "\n\nPrevious sub-task results:\n" ++ previous_results_text

/-- The mutable state of the module-level orchestration loop:
`task_exchanges`, `haiku_tasks` and `file_content_for_haiku`. -/
structure LoopState where
  task_exchanges : List (String × String)
  haiku_tasks : List TaskRecord
  file_content_for_haiku : Option String

/-- The loop state before the first iteration: both histories are empty and
`file_content_for_haiku` is not yet assigned (first iteration assigns it). -/
def initLoopState : LoopState := ⟨[], [], none⟩

/-- Source line 53: `"\n".join(previous_results) if previous_results else
"None"`, with `previous_results = [result for _, result in task_exchanges]`. -/
def prevResultsText (st : LoopState) : String :=
  let previous_results := st.task_exchanges.map (fun e => e.2)
  if previous_results.isEmpty then "None" else String.intercalate "\n" previous_results

/-- Source lines 263–266: the instruction dispatched to the sub-task
executor; file content is appended only when `file_content_for_haiku` is
truthy and `haiku_tasks` is still empty. -/
def subTaskPromptOf (opus_result : String) (file_content_for_haiku : Option String)
    (haiku_tasks : List TaskRecord) : String :=
  if pyTruthyOptStr file_content_for_haiku && haiku_tasks.isEmpty then
    opus_result ++ "\n\nFile content:\n" ++
      (match file_content_for_haiku with | some s => s | none => "")
  else opus_result

/-- Result of running the orchestration loop under bounded fuel:
`done` carries the recorded final output; `outOfFuel` signals that the given
iteration budget was exhausted with the loop still running; `stuck` signals a
failed sub-agent call.  All constructors carry the orchestrator prompts and
the dispatched sub-task instructions accumulated so far, in order. -/
inductive LoopOutcome where
  | done (finalOutput : String) (orcPrompts dispatches : List String)
  | outOfFuel (orcPrompts dispatches : List String) (st : LoopState)
  | stuck (e : AgentErr) (orcPrompts dispatches : List String)

/-- Orchestrator prompts issued during the run. -/
def LoopOutcome.orcPrompts' : LoopOutcome → List String
  | .done _ ps _ => ps
  | .outOfFuel ps _ _ => ps
  | .stuck _ ps _ => ps

/-- Sub-task instructions dispatched during the run. -/
def LoopOutcome.dispatches' : LoopOutcome → List String
  | .done _ _ ds => ds
  | .outOfFuel _ ds _ => ds
  | .stuck _ _ ds => ds

/-- Source lines 247–275, the module-level `while True:` orchestration loop.
`orc n` is the orchestrator's response text at iteration `n` (the gateway is
external, so its responses are an oracle) and `sub n` is the sub-agent
gateway oracle available to iteration `n`'s `haiku_sub_agent` call.  `fuel`
bounds how many iterations we are willing to unfold — the source enforces no
such bound, which is exactly what the fuel-indexed statements express. -/
def runLoop (orc : Nat → String) (sub : Nat → List String)
    (objective : String) (file_content : Option String) :
    Nat → Nat → LoopState → List String → List String → LoopOutcome
  | 0, _, st, ps, ds => LoopOutcome.outOfFuel ps ds st
  | fuel + 1, n, st, ps, ds =>
    -- lines 249–256: first iteration passes the module-level file content to
    -- the orchestrator and assigns `file_content_for_haiku`; later iterations
    -- pass no file content and leave `file_content_for_haiku` unchanged.
    let fcArg : Option String := if st.task_exchanges.isEmpty then file_content else none
    let fch : Option String :=
      if st.task_exchanges.isEmpty then file_content else st.file_content_for_haiku
    let orcPrompt := generate_ollama_prompt objective fcArg (prevResultsText st)
    let opus_result := orc n
    let ps' := ps ++ [orcPrompt]
    if containsMarker opus_result then
      LoopOutcome.done (finalOutputOf opus_result) ps' ds
    else
      let sub_task_prompt := subTaskPromptOf opus_result fch st.haiku_tasks
      match haiku_sub_agent sub_task_prompt st.haiku_tasks false (sub n) with
      | Except.error e => LoopOutcome.stuck e ps' (ds ++ [sub_task_prompt])
      | Except.ok (sub_task_result, _, _) =>
        runLoop orc sub objective file_content fuel (n + 1)
          { task_exchanges := st.task_exchanges ++ [(sub_task_prompt, sub_task_result)],
            haiku_tasks := st.haiku_tasks ++ [⟨sub_task_prompt, sub_task_result⟩],
            file_content_for_haiku := none }
          ps' (ds ++ [sub_task_prompt])

/-- Values produced by Python's `json.loads` (nested JSON data). -/
inductive PyJson where
  | null
  | bool (b : Bool)
  | num (n : Int)
  | str (s : String)
  | arr (elems : List PyJson)
  | obj (entries : List (String × PyJson))

/-- `isinstance(value, dict)`. -/
def PyJson.isObj : PyJson → Bool
  | PyJson.obj _ => true
  | _ => false

/-- Source lines 293–302: `folder_structure` starts as `{}`; a successful
`json.loads` replaces it with the decoded value, a `JSONDecodeError` leaves
it empty.  `json.loads` itself is the Python standard library, external to
this file, so its outcome on the raw fragment is the `decodeResult`
parameter. -/
def folderStructureFromDecode (decodeResult : Except String PyJson) : PyJson :=
  match decodeResult with
  | Except.ok v => v
  | Except.error _ => PyJson.obj []

/-- The error panels printed by the decode `except` branch (source lines
299–302): the decode error message and the offending raw text. -/
def folderStructureEvents (decodeResult : Except String PyJson)
    (json_string : String) : List Event :=
  match decodeResult with
  | Except.ok _ => []
  | Except.error e => [Event.jsonParseError e, Event.invalidJsonString json_string]

/-- Filesystem state plus the console log: which directories exist, what
content each file path holds, and the panels/warnings printed so far. -/
structure World where
  dirs : String → Bool
  files : String → Option String
  log : List Event

/-- An empty filesystem with an empty log. -/
def emptyWorld : World := ⟨fun _ => false, fun _ => none, []⟩

/-- Whether a string starts with the path separator. -/
def startsSlash (s : String) : Bool :=
  match s.data with
  | '/' :: _ => true
  | _ => false

/-- Whether a string ends with the path separator. -/
def endsSlash (s : String) : Bool := s.data.getLast? == some '/'

/-- POSIX `os.path.join` for the two-argument uses in the source: an
absolute second component replaces the first, otherwise the components are
joined with a single separator. -/
def osJoin (a b : String) : String :=
  if startsSlash b then b
  else if a = "" || endsSlash a then a ++ b
  else a ++ "/" ++ b

/-- `os.makedirs(path, exist_ok=True)` followed by the folder-creation
panel: record the directory and log the panel (pre-existing directories are
not an error, and the panel is printed regardless). -/
def mkdirW (w : World) (path : String) : World :=
  { w with dirs := fun q => q == path || w.dirs q,
           log := w.log ++ [Event.createdFolder path] }

/-- `open(path, 'w').write(content)` followed by the file-creation panel:
overwrite the path's content and log the panel. -/
def writeW (w : World) (path : String) (content : String) : World :=
  { w with files := fun q => if q == path then some content else w.files q,
           log := w.log ++ [Event.createdFile path] }

/-- The "Code content not found" warning panel (source lines 209–210). -/
def warnMissingW (w : World) (key : String) : World :=
  { w with log := w.log ++ [Event.missingCode key] }

/-- Source lines 197–198: `next((code for file, code in code_blocks if file
== key), None)` — the first code body whose filename equals the key. -/
def firstCode (code_blocks : List (String × String)) (key : String) : Option String :=
  (code_blocks.find? (fun bc => bc.1 == key)).map (fun bc => bc.2)

/-- Source lines 184–210, the body of `create_folders_and_files`, iterating
over the entries of a dict value.  A dict value creates the folder and
recurses into it; any other value is a file leaf: its key is looked up in
`code_blocks` and the first matching body is written if truthy (Python's
`if code_content:` — `None` and the empty string both fall to the
missing-content warning), then iteration proceeds with the remaining
entries. -/
def walkEntries (code_blocks : List (String × String)) :
    List (String × PyJson) → String → World → World
  | [], _, w => w
  | (key, value) :: rest, current_path, w =>
    let path := osJoin current_path key
    match value with
    | PyJson.obj sub =>
      walkEntries code_blocks rest current_path
        (walkEntries code_blocks sub path (mkdirW w path))
    | _ =>
      match firstCode code_blocks key with
      | some code_content =>
        if code_content ≠ "" then
          walkEntries code_blocks rest current_path (writeW w path code_content)
        else
          walkEntries code_blocks rest current_path (warnMissingW w key)
      | none => walkEntries code_blocks rest current_path (warnMissingW w key)

/-- Characterization of the walk's effect on file contents: the body written
last to path `p` by `walkEntries code_blocks entries current_path`, if any.
Later entries take precedence (they overwrite), and within one entry a
subtree is explored in place. -/
def lastWriteEntries (code_blocks : List (String × String)) :
    List (String × PyJson) → String → String → Option String
  | [], _, _ => none
  | (key, value) :: rest, current_path, p =>
    let path := osJoin current_path key
    let fromHead : Option String :=
      match value with
      | PyJson.obj sub => lastWriteEntries code_blocks sub path p
      | _ =>
        match firstCode code_blocks key with
        | some code_content =>
          if code_content ≠ "" then (if path == p then some code_content else none) else none
        | none => none
    match lastWriteEntries code_blocks rest current_path p with
    | some c => some c
    | none => fromHead

/-- Characterization of the walk's effect on directories: whether
`walkEntries code_blocks entries current_path` creates directory `p`. -/
def mkdirsEntries (code_blocks : List (String × String)) :
    List (String × PyJson) → String → String → Bool
  | [], _, _ => false
  | (key, value) :: rest, current_path, p =>
    let path := osJoin current_path key
    (match value with
     | PyJson.obj sub => path == p || mkdirsEntries code_blocks sub path p
     | _ => false) ||
    mkdirsEntries code_blocks rest current_path p

/-- Source lines 184–210, `create_folders_and_files`.  The function starts
with `structure.items()`: a non-dict argument raises an uncaught
`AttributeError` (the per-entry `except` clauses catch only
`OSError`/`IOError`), modelled as `Except.error`.  Recursive calls always
receive dict values, so only the top-level call can fail this way. -/
def create_folders_and_files (current_path : String) (struct : PyJson)
    (code_blocks : List (String × String)) (w : World) : Except PyJson World :=
  match struct with
  | PyJson.obj entries => Except.ok (walkEntries code_blocks entries current_path w)
  | other => Except.error other

/-- Source lines 172–181, `create_folder_structure`: create the project root
directory (`exist_ok=True`, pre-existing is not an error), print the
project-folder panel, then walk the tree. -/
def create_folder_structure (project_name : String) (folder_structure : PyJson)
    (code_blocks : List (String × String)) (w : World) : Except PyJson World :=
  let w1 : World :=
    { w with dirs := fun q => q == project_name || w.dirs q,
             log := w.log ++ [Event.createdProjectFolder project_name] }
  create_folders_and_files project_name folder_structure code_blocks w1

/-- A 4000-character gateway response, used as a concrete input at the
truncation threshold. -/
def longA : String := ⟨List.replicate 4000 'a'⟩

/-- A concrete two-level project tree used to exercise the materializer. -/
def sampleTree : PyJson :=
  PyJson.obj [("a.py", PyJson.null), ("src", PyJson.obj [("b.py", PyJson.null)])]

/-- Code bodies matching the leaves of `sampleTree`. -/
def sampleBlocks : List (String × String) :=
  [("a.py", "print(1)"), ("b.py", "print(2)")]

/-- The world after materializing `sampleTree` once from `emptyWorld`. -/
def sampleOnce : World :=
  match create_folder_structure "proj" sampleTree sampleBlocks emptyWorld with
  | Except.ok w => w
  | Except.error _ => emptyWorld

/-- The world after materializing `sampleTree` a second time. -/
def sampleTwice : World :=
  match create_folder_structure "proj" sampleTree sampleBlocks sampleOnce with
  | Except.ok w => w
  | Except.error _ => emptyWorld

/-! ## General lemmas -/

theorem longA_length : longA.length = 4000 := by
  show (List.replicate 4000 'a').length = 4000
  exact List.length_replicate 4000 'a'

theorem mem_dropWhile_of_mem {p : Char → Bool} {l : List Char} {c : Char}
    (hc : c ∈ l) (hpc : p c = false) : c ∈ l.dropWhile p := by
  have hsplit : l.takeWhile p ++ l.dropWhile p = l := List.takeWhile_append_dropWhile p l
  rw [← hsplit] at hc
  rcases List.mem_append.mp hc with h | h
  · have := List.mem_takeWhile_imp h
    simp [hpc] at this
  · exact h

theorem dropWhile_ne_nil_of_mem {p : Char → Bool} {l : List Char} {c : Char}
    (hc : c ∈ l) (hpc : p c = false) : l.dropWhile p ≠ [] := by
  intro h
  have := List.dropWhile_eq_nil_iff.mp h c hc
  simp [hpc] at this

theorem stripList_ne_nil {l : List Char} {c : Char} (hc : c ∈ l)
    (hpc : pyIsSpace c = false) : stripList l ≠ [] := by
  unfold stripList
  intro h
  rw [List.reverse_eq_nil_iff] at h
  have h1 : c ∈ l.dropWhile pyIsSpace := mem_dropWhile_of_mem hc hpc
  have h2 : c ∈ (l.dropWhile pyIsSpace).reverse := List.mem_reverse.mpr h1
  exact dropWhile_ne_nil_of_mem h2 hpc h

theorem pyStrip_ne_empty {s : String} {c : Char} (hc : c ∈ s.data)
    (hpc : pyIsSpace c = false) : pyStrip s ≠ "" := by
  intro h
  have hd : stripList s.data = [] := congrArg String.data h
  exact stripList_ne_nil hc hpc hd

theorem haikuFullPrompt_data (prompt : String) (prev : List TaskRecord) (cont : Bool) :
    (haikuFullPrompt prompt prev cont).data =
      "Previous Haiku tasks:".data ++
        ('\n' :: ((String.intercalate "\n"
              (prev.map (fun task => "Task: " ++ task.task ++ "\nResult: " ++ task.result))).data ++
            ("\n\n".data ++ (if cont then continuationPrompt else prompt).data))) := by
  have h : "Previous Haiku tasks:\n".data = "Previous Haiku tasks:".data ++ ['\n'] := by decide
  simp [haikuFullPrompt, previousTasksSummary, String.data_append, h, List.append_assoc]

theorem mem_P_haikuFullPrompt (prompt : String) (prev : List TaskRecord) (cont : Bool) :
    'P' ∈ (haikuFullPrompt prompt prev cont).data := by
  rw [haikuFullPrompt_data]
  exact List.mem_append.mpr (Or.inl (by decide))

theorem haiku_guard (prompt : String) (prev : List TaskRecord) (cont : Bool) :
    pyStrip (haikuFullPrompt prompt prev cont) ≠ "" :=
  pyStrip_ne_empty (mem_P_haikuFullPrompt prompt prev cont) (by decide)

theorem haikuFullPrompt_isPrefix (prompt : String) (prev : List TaskRecord) (cont : Bool) :
    "Previous Haiku tasks:".data.isPrefixOf (haikuFullPrompt prompt prev cont).data = true := by
  rw [List.isPrefixOf_iff_prefix, haikuFullPrompt_data]
  exact List.prefix_append _ _

theorem haiku_nil (prompt : String) (prev : List TaskRecord) (cont : Bool) :
    haiku_sub_agent prompt prev cont [] = Except.error AgentErr.oracleExhausted := by
  simp only [haiku_sub_agent]
  rw [if_neg (haiku_guard prompt prev cont)]

theorem haiku_cons_long (prompt : String) (prev : List TaskRecord) (cont : Bool)
    (t : String) (rest : List String) (h : t.length ≥ 4000) :
    haiku_sub_agent prompt prev cont (t :: rest) =
      (haiku_sub_agent continuationPrompt prev true rest).map
        (fun x => (t ++ x.1, x.2.1,
          Event.chatCall SUBAGENT_MODEL (haikuFullPrompt prompt prev cont) ::
            Event.warnTruncation :: x.2.2)) := by
  conv_lhs => rw [haiku_sub_agent]
  rw [if_neg (haiku_guard prompt prev cont)]
  rw [if_pos h]
  cases hres : haiku_sub_agent continuationPrompt prev true rest with
  | error e => simp [Except.map]
  | ok x => simp [Except.map]

theorem haiku_cons_short (prompt : String) (prev : List TaskRecord) (cont : Bool)
    (t : String) (rest : List String) (h : ¬ t.length ≥ 4000) :
    haiku_sub_agent prompt prev cont (t :: rest) =
      Except.ok (t, rest, [Event.chatCall SUBAGENT_MODEL (haikuFullPrompt prompt prev cont)]) := by
  conv_lhs => rw [haiku_sub_agent]
  rw [if_neg (haiku_guard prompt prev cont)]
  rw [if_neg h]

theorem haiku_ne_emptyPrompt :
    ∀ (oracle : List String) (prompt : String) (prev : List TaskRecord) (cont : Bool),
      haiku_sub_agent prompt prev cont oracle ≠ Except.error AgentErr.emptyPrompt := by
  intro oracle
  induction oracle with
  | nil =>
    intro prompt prev cont h
    rw [haiku_nil] at h
    simp at h
  | cons t rest ih =>
    intro prompt prev cont
    by_cases hl : t.length ≥ 4000
    · rw [haiku_cons_long prompt prev cont t rest hl]
      cases hres : haiku_sub_agent continuationPrompt prev true rest with
      | error e =>
        have he : e ≠ AgentErr.emptyPrompt := fun hcontra =>
          ih continuationPrompt prev true (hcontra ▸ hres)
        simp [Except.map, he]
      | ok x => simp [Except.map]
    · rw [haiku_cons_short prompt prev cont t rest hl]
      simp

theorem opus_refine_nil (objective : String) (results : List String)
    (filename projectname : String) (cont : Bool) :
    opus_refine objective results filename projectname cont [] =
      Except.error AgentErr.oracleExhausted := by
  rw [opus_refine]

theorem opus_refine_cons_long (objective : String) (results : List String)
    (filename projectname : String) (cont : Bool) (t : String) (rest : List String)
    (h : t.length ≥ 4000) :
    opus_refine objective results filename projectname cont (t :: rest) =
      (opus_refine objective results filename projectname true rest).map
        (fun x => (t ++ x.1, x.2.1,
          Event.chatCall REFINER_MODEL (refinePromptContent objective results) ::
            Event.warnTruncation :: x.2.2)) := by
  conv_lhs => rw [opus_refine]
  rw [if_pos h]
  cases hres : opus_refine objective results filename projectname true rest with
  | error e => simp [Except.map]
  | ok x => simp [Except.map]

theorem opus_refine_cons_short (objective : String) (results : List String)
    (filename projectname : String) (cont : Bool) (t : String) (rest : List String)
    (h : ¬ t.length ≥ 4000) :
    opus_refine objective results filename projectname cont (t :: rest) =
      Except.ok (t, rest, [Event.chatCall REFINER_MODEL (refinePromptContent objective results)]) := by
  conv_lhs => rw [opus_refine]
  rw [if_neg h]

/-! ## Claim C9 -/

/-- C9: for every instruction string (including the empty string), every
history of prior task records and every continuation flag, the sub-task
executor's composed full prompt begins with the fixed header
`"Previous Haiku tasks:"`, is non-empty after stripping whitespace, and
consequently `haiku_sub_agent` never returns the fatal empty-prompt error,
whatever the gateway oracle answers. -/
theorem c9_sub_agent_prompt_never_empty :
    ∀ (prompt : String) (prev : List TaskRecord) (cont : Bool),
      "Previous Haiku tasks:".data.isPrefixOf (haikuFullPrompt prompt prev cont).data = true ∧
      pyStrip (haikuFullPrompt prompt prev cont) ≠ "" ∧
      ∀ (oracle : List String),
        haiku_sub_agent prompt prev cont oracle ≠ Except.error AgentErr.emptyPrompt := by
  intro prompt prev cont
  exact ⟨haikuFullPrompt_isPrefix prompt prev cont, haiku_guard prompt prev cont,
    fun oracle => haiku_ne_emptyPrompt oracle prompt prev cont⟩

/-! ## Claim C4 -/

/-- C4: if the gateway returns first a string of length at least 4000 and
then a string of length below 4000, the sub-task executor returns the raw
character-level concatenation of the two, and the event trace shows exactly
two gateway calls — the original one and one continuation call carrying the
same task history with the standardized continuation instruction. -/
theorem c4_continuation_concatenation (prompt : String) (prev : List TaskRecord)
    (cont : Bool) (t1 t2 : String) (h1 : t1.length ≥ 4000) (h2 : t2.length < 4000) :
    haiku_sub_agent prompt prev cont [t1, t2] =
      Except.ok (t1 ++ t2, [],
        [Event.chatCall SUBAGENT_MODEL (haikuFullPrompt prompt prev cont),
         Event.warnTruncation,
         Event.chatCall SUBAGENT_MODEL (haikuFullPrompt continuationPrompt prev true)]) ∧
    chatContents
        [Event.chatCall SUBAGENT_MODEL (haikuFullPrompt prompt prev cont),
         Event.warnTruncation,
         Event.chatCall SUBAGENT_MODEL (haikuFullPrompt continuationPrompt prev true)] =
      [haikuFullPrompt prompt prev cont, haikuFullPrompt continuationPrompt prev true] := by
  constructor
  · rw [haiku_cons_long prompt prev cont t1 [t2] h1,
      haiku_cons_short continuationPrompt prev true t2 [] (Nat.not_le.mpr h2)]
    simp [Except.map]
  · simp [chatContents]

/-- Witness for C4 at a concrete 4000-character first response. -/
theorem c4_continuation_concatenation_witness :
    haiku_sub_agent "go" [] false [longA, "b"] =
      Except.ok (longA ++ "b", [],
        [Event.chatCall SUBAGENT_MODEL (haikuFullPrompt "go" [] false),
         Event.warnTruncation,
         Event.chatCall SUBAGENT_MODEL (haikuFullPrompt continuationPrompt [] true)]) :=
  (c4_continuation_concatenation "go" [] false longA "b"
    (by simp [longA_length]) (by decide)).1

/-! ## Claim C2 -/

/-- C2 counterexample: the claim says the Refiner re-invokes the gateway
with a standardized "continue from where you left off" instruction rather
than the original prompt.  In the code the `continuation` parameter of
`opus_refine` is never consulted when building the request, so the
continuation call re-sends the original refine prompt verbatim: on a
truncated first response the trace contains the same content twice, and that
content does not even contain the continuation instruction. -/
theorem c2_refiner_continuation_counterexample :
    opus_refine "o" ["r"] "f" "p" false [longA, "done"] =
      Except.ok (longA ++ "done", [],
        [Event.chatCall REFINER_MODEL (refinePromptContent "o" ["r"]),
         Event.warnTruncation,
         Event.chatCall REFINER_MODEL (refinePromptContent "o" ["r"])]) ∧
    containsSub continuationPrompt.data (refinePromptContent "o" ["r"]).data = false := by
  constructor
  · rw [opus_refine_cons_long "o" ["r"] "f" "p" false longA ["done"] (by simp [longA_length]),
      opus_refine_cons_short "o" ["r"] "f" "p" true "done" [] (by decide)]
    simp [Except.map]
  · decide

/-- C2 amended: on a response of length at least 4000 both executors warn
and re-invoke the gateway carrying the same accumulated history and
concatenate the continuation text onto the original text with no separator;
the Sub-task Executor's re-invocation uses the standardized continuation
instruction, while the Refiner's re-invocation re-sends its original
request content unchanged (its `continuation` flag does not alter the
request). -/
theorem c2_truncation_continuation_amended :
    (∀ (prompt : String) (prev : List TaskRecord) (cont : Bool) (t : String)
        (rest : List String), t.length ≥ 4000 →
      haiku_sub_agent prompt prev cont (t :: rest) =
        (haiku_sub_agent continuationPrompt prev true rest).map
          (fun x => (t ++ x.1, x.2.1,
            Event.chatCall SUBAGENT_MODEL (haikuFullPrompt prompt prev cont) ::
              Event.warnTruncation :: x.2.2))) ∧
    (∀ (objective : String) (results : List String) (filename projectname : String)
        (cont : Bool) (t : String) (rest : List String), t.length ≥ 4000 →
      opus_refine objective results filename projectname cont (t :: rest) =
        (opus_refine objective results filename projectname true rest).map
          (fun x => (t ++ x.1, x.2.1,
            Event.chatCall REFINER_MODEL (refinePromptContent objective results) ::
              Event.warnTruncation :: x.2.2))) :=
  ⟨fun prompt prev cont t rest h => haiku_cons_long prompt prev cont t rest h,
   fun objective results filename projectname cont t rest h =>
     opus_refine_cons_long objective results filename projectname cont t rest h⟩

/-- Witness for the amended C2 at a concrete threshold-length response. -/
theorem c2_truncation_continuation_amended_witness :
    haiku_sub_agent "go" [] false [longA, "b"] =
      (haiku_sub_agent continuationPrompt [] true ["b"]).map
        (fun x => (longA ++ x.1, x.2.1,
          Event.chatCall SUBAGENT_MODEL (haikuFullPrompt "go" [] false) ::
            Event.warnTruncation :: x.2.2)) ∧
    opus_refine "o" ["r"] "f" "p" false [longA, "b"] =
      (opus_refine "o" ["r"] "f" "p" true ["b"]).map
        (fun x => (longA ++ x.1, x.2.1,
          Event.chatCall REFINER_MODEL (refinePromptContent "o" ["r"]) ::
            Event.warnTruncation :: x.2.2)) :=
  ⟨c2_truncation_continuation_amended.1 "go" [] false longA ["b"] (by simp [longA_length]),
   c2_truncation_continuation_amended.2 "o" ["r"] "f" "p" false longA ["b"]
     (by simp [longA_length])⟩

/-! ## Orchestration-loop lemmas -/

theorem isEmpty_false_of_ne_nil {α : Type} {l : List α} (h : l ≠ []) : l.isEmpty = false := by
  cases l with
  | nil => exact absurd rfl h
  | cons a t => rfl

theorem subTaskPromptOf_of_tasks_ne_nil (r : String) (fch : Option String)
    {tasks : List TaskRecord} (h : tasks ≠ []) : subTaskPromptOf r fch tasks = r := by
  unfold subTaskPromptOf
  rw [isEmpty_false_of_ne_nil h, Bool.and_false]
  rfl

theorem getElem?_append_singleton {α : Type} (l : List α) (a : α) (j : Nat) :
    (l ++ [a])[j]? = if j < l.length then l[j]?
      else if j = l.length then some a else none := by
  rw [List.getElem?_append]
  by_cases h : j < l.length
  · simp [h]
  · by_cases h2 : j = l.length
    · subst h2
      simp
    · have h3 : j - l.length ≠ 0 := by omega
      cases hk : j - l.length with
      | zero => exact absurd hk h3
      | succ k => simp [h, h2, hk]

theorem runLoop_zero (orc : Nat → String) (sub : Nat → List String) (obj : String)
    (fc : Option String) (n : Nat) (st : LoopState) (ps ds : List String) :
    runLoop orc sub obj fc 0 n st ps ds = LoopOutcome.outOfFuel ps ds st := rfl

theorem runLoop_succ_marker (orc : Nat → String) (sub : Nat → List String) (obj : String)
    (fc : Option String) (fuel n : Nat) (st : LoopState) (ps ds : List String)
    (h : containsMarker (orc n) = true) :
    runLoop orc sub obj fc (fuel + 1) n st ps ds =
      LoopOutcome.done (finalOutputOf (orc n))
        (ps ++ [generate_ollama_prompt obj (if st.task_exchanges.isEmpty then fc else none)
          (prevResultsText st)]) ds := by
  rw [runLoop]
  simp only [h, if_true]

theorem runLoop_succ_stuck (orc : Nat → String) (sub : Nat → List String) (obj : String)
    (fc : Option String) (fuel n : Nat) (st : LoopState) (ps ds : List String)
    (h : containsMarker (orc n) = false) (e : AgentErr)
    (hs : haiku_sub_agent
        (subTaskPromptOf (orc n)
          (if st.task_exchanges.isEmpty then fc else st.file_content_for_haiku) st.haiku_tasks)
        st.haiku_tasks false (sub n) = Except.error e) :
    runLoop orc sub obj fc (fuel + 1) n st ps ds =
      LoopOutcome.stuck e
        (ps ++ [generate_ollama_prompt obj (if st.task_exchanges.isEmpty then fc else none)
          (prevResultsText st)])
        (ds ++ [subTaskPromptOf (orc n)
          (if st.task_exchanges.isEmpty then fc else st.file_content_for_haiku) st.haiku_tasks]) := by
  rw [runLoop]
  simp only [h, Bool.false_eq_true, if_false, hs]

theorem runLoop_succ_continue (orc : Nat → String) (sub : Nat → List String) (obj : String)
    (fc : Option String) (fuel n : Nat) (st : LoopState) (ps ds : List String)
    (h : containsMarker (orc n) = false) (res : String) (rest : List String) (evs : List Event)
    (hs : haiku_sub_agent
        (subTaskPromptOf (orc n)
          (if st.task_exchanges.isEmpty then fc else st.file_content_for_haiku) st.haiku_tasks)
        st.haiku_tasks false (sub n) = Except.ok (res, rest, evs)) :
    runLoop orc sub obj fc (fuel + 1) n st ps ds =
      runLoop orc sub obj fc fuel (n + 1)
        { task_exchanges := st.task_exchanges ++
            [(subTaskPromptOf (orc n)
              (if st.task_exchanges.isEmpty then fc else st.file_content_for_haiku) st.haiku_tasks,
              res)],
          haiku_tasks := st.haiku_tasks ++
            [⟨subTaskPromptOf (orc n)
              (if st.task_exchanges.isEmpty then fc else st.file_content_for_haiku) st.haiku_tasks,
              res⟩],
          file_content_for_haiku := none }
        (ps ++ [generate_ollama_prompt obj (if st.task_exchanges.isEmpty then fc else none)
          (prevResultsText st)])
        (ds ++ [subTaskPromptOf (orc n)
          (if st.task_exchanges.isEmpty then fc else st.file_content_for_haiku) st.haiku_tasks]) := by
  rw [runLoop]
  simp only [h, Bool.false_eq_true, if_false, hs]

theorem runLoop_acc (orc : Nat → String) (sub : Nat → List String) (obj : String)
    (fc : Option String) :
    ∀ (fuel n : Nat) (st : LoopState) (ps ds : List String),
      ∃ a b, (runLoop orc sub obj fc fuel n st ps ds).orcPrompts' = ps ++ a ∧
        (runLoop orc sub obj fc fuel n st ps ds).dispatches' = ds ++ b := by
  intro fuel
  induction fuel with
  | zero =>
    intro n st ps ds
    exact ⟨[], [], by simp [runLoop_zero, LoopOutcome.orcPrompts'],
      by simp [runLoop_zero, LoopOutcome.dispatches']⟩
  | succ fuel ih =>
    intro n st ps ds
    cases hm : containsMarker (orc n) with
    | true =>
      rw [runLoop_succ_marker orc sub obj fc fuel n st ps ds hm]
      exact ⟨_, [], rfl, by simp [LoopOutcome.dispatches']⟩
    | false =>
      cases hres : haiku_sub_agent
          (subTaskPromptOf (orc n)
            (if st.task_exchanges.isEmpty then fc else st.file_content_for_haiku) st.haiku_tasks)
          st.haiku_tasks false (sub n) with
      | error e =>
        rw [runLoop_succ_stuck orc sub obj fc fuel n st ps ds hm e hres]
        exact ⟨_, _, rfl, rfl⟩
      | ok x =>
        obtain ⟨res, rest, evs⟩ := x
        rw [runLoop_succ_continue orc sub obj fc fuel n st ps ds hm res rest evs hres]
        obtain ⟨a, b, h1, h2⟩ := ih (n + 1) _ _ _
        refine ⟨[generate_ollama_prompt obj (if st.task_exchanges.isEmpty then fc else none)
            (prevResultsText st)] ++ a,
          [subTaskPromptOf (orc n)
            (if st.task_exchanges.isEmpty then fc else st.file_content_for_haiku)
            st.haiku_tasks] ++ b, ?_, ?_⟩
        · rw [h1, List.append_assoc]
        · rw [h2, List.append_assoc]

theorem runLoop_established (orc : Nat → String) (sub : Nat → List String) (obj : String)
    (fc : Option String) :
    ∀ (fuel n : Nat) (st : LoopState) (ps ds : List String),
      st.task_exchanges ≠ [] → st.haiku_tasks ≠ [] → ds.length = n →
      (∀ (j : Nat) (p : String),
        (runLoop orc sub obj fc fuel n st ps ds).orcPrompts'[j]? = some p →
        ps[j]? = some p ∨ ∃ pt, p = generate_ollama_prompt obj none pt) ∧
      (∀ (j : Nat) (d : String),
        (runLoop orc sub obj fc fuel n st ps ds).dispatches'[j]? = some d →
        ds[j]? = some d ∨ d = orc j) := by
  intro fuel
  induction fuel with
  | zero =>
    intro n st ps ds _ _ _
    refine ⟨fun j p hj => Or.inl ?_, fun j d hj => Or.inl ?_⟩
    · simpa [runLoop_zero, LoopOutcome.orcPrompts'] using hj
    · simpa [runLoop_zero, LoopOutcome.dispatches'] using hj
  | succ fuel ih =>
    intro n st ps ds hte hht hlen
    have hEmpty : st.task_exchanges.isEmpty = false := isEmpty_false_of_ne_nil hte
    have hsp : subTaskPromptOf (orc n)
        (if st.task_exchanges.isEmpty then fc else st.file_content_for_haiku) st.haiku_tasks =
        orc n := subTaskPromptOf_of_tasks_ne_nil _ _ hht
    have hfc : (if st.task_exchanges.isEmpty then fc else none) = none := by rw [hEmpty]; rfl
    cases hm : containsMarker (orc n) with
    | true =>
      rw [runLoop_succ_marker orc sub obj fc fuel n st ps ds hm]
      constructor
      · intro j p hj
        simp only [LoopOutcome.orcPrompts'] at hj
        rw [getElem?_append_singleton] at hj
        by_cases h1 : j < ps.length
        · rw [if_pos h1] at hj
          exact Or.inl hj
        · rw [if_neg h1] at hj
          by_cases h2 : j = ps.length
          · rw [if_pos h2] at hj
            refine Or.inr ⟨prevResultsText st, ?_⟩
            rw [hfc] at hj
            exact (Option.some.injEq _ _ ▸ hj).symm
          · rw [if_neg h2] at hj
            exact absurd hj (by simp)
      · intro j d hj
        exact Or.inl hj
    | false =>
      cases hres : haiku_sub_agent
          (subTaskPromptOf (orc n)
            (if st.task_exchanges.isEmpty then fc else st.file_content_for_haiku) st.haiku_tasks)
          st.haiku_tasks false (sub n) with
      | error e =>
        rw [runLoop_succ_stuck orc sub obj fc fuel n st ps ds hm e hres]
        constructor
        · intro j p hj
          simp only [LoopOutcome.orcPrompts'] at hj
          rw [getElem?_append_singleton] at hj
          by_cases h1 : j < ps.length
          · rw [if_pos h1] at hj
            exact Or.inl hj
          · rw [if_neg h1] at hj
            by_cases h2 : j = ps.length
            · rw [if_pos h2] at hj
              refine Or.inr ⟨prevResultsText st, ?_⟩
              rw [hfc] at hj
              exact (Option.some.injEq _ _ ▸ hj).symm
            · rw [if_neg h2] at hj
              exact absurd hj (by simp)
        · intro j d hj
          simp only [LoopOutcome.dispatches'] at hj
          rw [getElem?_append_singleton] at hj
          by_cases h1 : j < ds.length
          · rw [if_pos h1] at hj
            exact Or.inl hj
          · rw [if_neg h1] at hj
            by_cases h2 : j = ds.length
            · rw [if_pos h2] at hj
              refine Or.inr ?_
              rw [hsp] at hj
              have hd : d = orc n := (Option.some.injEq _ _ ▸ hj).symm
              rw [hd, h2, hlen]
            · rw [if_neg h2] at hj
              exact absurd hj (by simp)
      | ok x =>
        obtain ⟨res, rest, evs⟩ := x
        rw [runLoop_succ_continue orc sub obj fc fuel n st ps ds hm res rest evs hres]
        have hih := ih (n + 1)
          { task_exchanges := st.task_exchanges ++
              [(subTaskPromptOf (orc n)
                (if st.task_exchanges.isEmpty then fc else st.file_content_for_haiku)
                st.haiku_tasks, res)],
            haiku_tasks := st.haiku_tasks ++
              [⟨subTaskPromptOf (orc n)
                (if st.task_exchanges.isEmpty then fc else st.file_content_for_haiku)
                st.haiku_tasks, res⟩],
            file_content_for_haiku := none }
          (ps ++ [generate_ollama_prompt obj
            (if st.task_exchanges.isEmpty then fc else none) (prevResultsText st)])
          (ds ++ [subTaskPromptOf (orc n)
            (if st.task_exchanges.isEmpty then fc else st.file_content_for_haiku) st.haiku_tasks])
          (by simp) (by simp) (by simp [hlen])
        constructor
        · intro j p hj
          rcases hih.1 j p hj with h | h
          · rw [getElem?_append_singleton] at h
            by_cases h1 : j < ps.length
            · rw [if_pos h1] at h
              exact Or.inl h
            · rw [if_neg h1] at h
              by_cases h2 : j = ps.length
              · rw [if_pos h2] at h
                refine Or.inr ⟨prevResultsText st, ?_⟩
                rw [hfc] at h
                exact (Option.some.injEq _ _ ▸ h).symm
              · rw [if_neg h2] at h
                exact absurd h (by simp)
          · exact Or.inr h
        · intro j d hj
          rcases hih.2 j d hj with h | h
          · rw [getElem?_append_singleton] at h
            by_cases h1 : j < ds.length
            · rw [if_pos h1] at h
              exact Or.inl h
            · rw [if_neg h1] at h
              by_cases h2 : j = ds.length
              · rw [if_pos h2] at h
                refine Or.inr ?_
                rw [hsp] at h
                have hd : d = orc n := (Option.some.injEq _ _ ▸ h).symm
                rw [hd, h2, hlen]
              · rw [if_neg h2] at h
                exact absurd h (by simp)
          · exact Or.inr h

theorem haiku_single_short (prompt : String) (prev : List TaskRecord) (t : String)
    (h : t.length < 4000) :
    haiku_sub_agent prompt prev false [t] =
      Except.ok (t, [], [Event.chatCall SUBAGENT_MODEL (haikuFullPrompt prompt prev false)]) :=
  haiku_cons_short prompt prev false t [] (Nat.not_le.mpr h)

theorem runLoop_done_marker (orc : Nat → String) (sub : Nat → List String) (obj : String)
    (fc : Option String) :
    ∀ (fuel n : Nat) (st : LoopState) (ps ds : List String) (f : String) (ps' ds' : List String),
      runLoop orc sub obj fc fuel n st ps ds = LoopOutcome.done f ps' ds' →
      ∃ m, containsMarker (orc m) = true := by
  intro fuel
  induction fuel with
  | zero =>
    intro n st ps ds f ps' ds' h
    rw [runLoop_zero] at h
    exact absurd h (by simp)
  | succ fuel ih =>
    intro n st ps ds f ps' ds' h
    cases hm : containsMarker (orc n) with
    | true => exact ⟨n, hm⟩
    | false =>
      cases hres : haiku_sub_agent
          (subTaskPromptOf (orc n)
            (if st.task_exchanges.isEmpty then fc else st.file_content_for_haiku) st.haiku_tasks)
          st.haiku_tasks false (sub n) with
      | error e =>
        rw [runLoop_succ_stuck orc sub obj fc fuel n st ps ds hm e hres] at h
        exact absurd h (by simp)
      | ok x =>
        obtain ⟨res, rest, evs⟩ := x
        rw [runLoop_succ_continue orc sub obj fc fuel n st ps ds hm res rest evs hres] at h
        exact ih (n + 1) _ _ _ f ps' ds' h

theorem runLoop_no_marker_outOfFuel (orc : Nat → String) (sub : Nat → List String)
    (obj : String) (fc : Option String)
    (H : ∀ n, ∃ t, sub n = [t] ∧ t.length < 4000)
    (hm : ∀ n, containsMarker (orc n) = false) :
    ∀ (fuel n : Nat) (st : LoopState) (ps ds : List String),
      ∃ ps' ds' st', runLoop orc sub obj fc fuel n st ps ds =
        LoopOutcome.outOfFuel ps' ds' st' := by
  intro fuel
  induction fuel with
  | zero =>
    intro n st ps ds
    exact ⟨ps, ds, st, runLoop_zero orc sub obj fc n st ps ds⟩
  | succ fuel ih =>
    intro n st ps ds
    obtain ⟨t, hsub, hlen⟩ := H n
    have hok : haiku_sub_agent
        (subTaskPromptOf (orc n)
          (if st.task_exchanges.isEmpty then fc else st.file_content_for_haiku) st.haiku_tasks)
        st.haiku_tasks false (sub n) =
        Except.ok (t, [], [Event.chatCall SUBAGENT_MODEL
          (haikuFullPrompt (subTaskPromptOf (orc n)
            (if st.task_exchanges.isEmpty then fc else st.file_content_for_haiku) st.haiku_tasks)
            st.haiku_tasks false)]) := by
      rw [hsub]
      exact haiku_single_short _ _ t hlen
    rw [runLoop_succ_continue orc sub obj fc fuel n st ps ds (hm n) t [] _ hok]
    exact ih (n + 1) _ _ _

theorem runLoop_reach_done (orc : Nat → String) (sub : Nat → List String)
    (obj : String) (fc : Option String)
    (H : ∀ n, ∃ t, sub n = [t] ∧ t.length < 4000) :
    ∀ (j n : Nat) (st : LoopState) (ps ds : List String),
      (∀ i, i < j → containsMarker (orc (n + i)) = false) →
      containsMarker (orc (n + j)) = true →
      ∃ ps' ds', runLoop orc sub obj fc (j + 1) n st ps ds =
        LoopOutcome.done (finalOutputOf (orc (n + j))) ps' ds' := by
  intro j
  induction j with
  | zero =>
    intro n st ps ds _ hmk
    rw [Nat.add_zero] at hmk
    exact ⟨_, _, runLoop_succ_marker orc sub obj fc 0 n st ps ds hmk⟩
  | succ j ih =>
    intro n st ps ds hno hmk
    have h0 : containsMarker (orc n) = false := by
      have := hno 0 (Nat.succ_pos j)
      rwa [Nat.add_zero] at this
    obtain ⟨t, hsub, hlen⟩ := H n
    have hok : haiku_sub_agent
        (subTaskPromptOf (orc n)
          (if st.task_exchanges.isEmpty then fc else st.file_content_for_haiku) st.haiku_tasks)
        st.haiku_tasks false (sub n) =
        Except.ok (t, [], [Event.chatCall SUBAGENT_MODEL
          (haikuFullPrompt (subTaskPromptOf (orc n)
            (if st.task_exchanges.isEmpty then fc else st.file_content_for_haiku) st.haiku_tasks)
            st.haiku_tasks false)]) := by
      rw [hsub]
      exact haiku_single_short _ _ t hlen
    rw [runLoop_succ_continue orc sub obj fc (j + 1) n st ps ds h0 t [] _ hok]
    have hno' : ∀ i, i < j → containsMarker (orc (n + 1 + i)) = false := by
      intro i hi
      have := hno (i + 1) (by omega)
      rwa [show n + (i + 1) = n + 1 + i by omega] at this
    have hmk' : containsMarker (orc (n + 1 + j)) = true := by
      rwa [show n + 1 + j = n + (j + 1) by omega]
    obtain ⟨ps', ds', hdone⟩ := ih (n + 1) _ _ _ hno' hmk'
    refine ⟨ps', ds', ?_⟩
    rw [hdone, show n + 1 + j = n + (j + 1) by omega]

/-! ## Claim C1 -/

/-- C1 counterexample: the claim asserts the recorded final text excludes
the completion marker.  `str.replace` removes occurrences in one left-to-right
pass without rescanning, so removing the marker from
`"The taThe task is complete:sk is complete:"` joins the flanks into a fresh
copy of the marker: the loop exits, but the recorded final text is exactly
the marker, which the text therefore does not exclude. -/
theorem c1_marker_strip_counterexample :
    runLoop (fun _ => "The taThe task is complete:sk is complete:") (fun _ => ["ok"])
        "o" none 1 0 initLoopState [] [] =
      LoopOutcome.done (finalOutputOf "The taThe task is complete:sk is complete:")
        [generate_ollama_prompt "o" none "None"] [] ∧
    finalOutputOf "The taThe task is complete:sk is complete:" = "The task is complete:" ∧
    containsMarker (finalOutputOf "The taThe task is complete:sk is complete:") = true :=
  ⟨rfl, by decide, by decide⟩

/-- C1 amended: when the orchestrator response contains the completion
marker the loop exits, recording as final text the response with all
left-to-right non-overlapping occurrences of the marker removed and
leading/trailing whitespace stripped (a text that can itself still contain
the marker when a removal joins two fragments); when the response does not
contain the marker, the response (with seed content appended on the very
first dispatch only) is dispatched to the sub-task executor, the exchange is
appended to both histories, and the loop keeps iterating. -/
theorem c1_completion_transition_amended (orc : Nat → String) (sub : Nat → List String)
    (obj : String) (fc : Option String) (fuel n : Nat) (st : LoopState) (ps ds : List String) :
    (containsMarker (orc n) = true →
      runLoop orc sub obj fc (fuel + 1) n st ps ds =
        LoopOutcome.done (finalOutputOf (orc n))
          (ps ++ [generate_ollama_prompt obj (if st.task_exchanges.isEmpty then fc else none)
            (prevResultsText st)]) ds) ∧
    (containsMarker (orc n) = false →
      ∀ (res : String) (rest : List String) (evs : List Event),
        haiku_sub_agent (subTaskPromptOf (orc n)
            (if st.task_exchanges.isEmpty then fc else st.file_content_for_haiku) st.haiku_tasks)
          st.haiku_tasks false (sub n) = Except.ok (res, rest, evs) →
        runLoop orc sub obj fc (fuel + 1) n st ps ds =
          runLoop orc sub obj fc fuel (n + 1)
            { task_exchanges := st.task_exchanges ++
                [(subTaskPromptOf (orc n)
                  (if st.task_exchanges.isEmpty then fc else st.file_content_for_haiku)
                  st.haiku_tasks, res)],
              haiku_tasks := st.haiku_tasks ++
                [⟨subTaskPromptOf (orc n)
                  (if st.task_exchanges.isEmpty then fc else st.file_content_for_haiku)
                  st.haiku_tasks, res⟩],
              file_content_for_haiku := none }
            (ps ++ [generate_ollama_prompt obj (if st.task_exchanges.isEmpty then fc else none)
              (prevResultsText st)])
            (ds ++ [subTaskPromptOf (orc n)
              (if st.task_exchanges.isEmpty then fc else st.file_content_for_haiku)
              st.haiku_tasks])) :=
  ⟨runLoop_succ_marker orc sub obj fc fuel n st ps ds,
   fun h res rest evs hs => runLoop_succ_continue orc sub obj fc fuel n st ps ds h res rest evs hs⟩

/-- Witness for the amended C1: one concrete marker response and one
concrete marker-free response. -/
theorem c1_completion_transition_amended_witness :
    runLoop (fun _ => "The task is complete: done") (fun _ => ["ok"]) "o" none 3 0
        initLoopState [] [] =
      LoopOutcome.done (finalOutputOf "The task is complete: done")
        [generate_ollama_prompt "o" none "None"] [] ∧
    runLoop (fun _ => "r") (fun _ => ["ok"]) "o" none 3 0 initLoopState [] [] =
      runLoop (fun _ => "r") (fun _ => ["ok"]) "o" none 2 1
        ⟨[("r", "ok")], [⟨"r", "ok"⟩], none⟩ [generate_ollama_prompt "o" none "None"] ["r"] :=
  ⟨(c1_completion_transition_amended (fun _ => "The task is complete: done") (fun _ => ["ok"])
      "o" none 2 0 initLoopState [] []).1 (by decide),
   (c1_completion_transition_amended (fun _ => "r") (fun _ => ["ok"])
      "o" none 2 0 initLoopState [] []).2 (by decide) "ok" [] _ rfl⟩

/-! ## Claim C8 -/

/-- C8: under a gateway oracle that always answers each sub-task call with a
single short response, the orchestration loop (which enforces no iteration
bound) completes if and only if some orchestrator response contains the
completion marker; if the marker never appears, every finite iteration
budget is exhausted with the loop still running. -/
theorem c8_unbounded_loop (orc : Nat → String) (sub : Nat → List String)
    (obj : String) (fc : Option String)
    (H : ∀ n, ∃ t, sub n = [t] ∧ t.length < 4000) :
    ((∃ fuel f ps ds, runLoop orc sub obj fc fuel 0 initLoopState [] [] =
        LoopOutcome.done f ps ds) ↔ ∃ n, containsMarker (orc n) = true) ∧
    ((∀ n, containsMarker (orc n) = false) → ∀ fuel, ∃ ps ds st,
      runLoop orc sub obj fc fuel 0 initLoopState [] [] =
        LoopOutcome.outOfFuel ps ds st) := by
  constructor
  · constructor
    · rintro ⟨fuel, f, ps, ds, h⟩
      exact runLoop_done_marker orc sub obj fc fuel 0 initLoopState [] [] f ps ds h
    · rintro ⟨n, hn⟩
      have hex : ∃ m, containsMarker (orc m) = true := ⟨n, hn⟩
      have hk : containsMarker (orc (Nat.find hex)) = true := Nat.find_spec hex
      have hlt : ∀ i, i < Nat.find hex → containsMarker (orc i) = false := fun i hi =>
        Bool.eq_false_iff.mpr (Nat.find_min hex hi)
      obtain ⟨ps, ds, hdone⟩ := runLoop_reach_done orc sub obj fc H (Nat.find hex) 0
        initLoopState [] []
        (fun i hi => by rw [Nat.zero_add]; exact hlt i hi)
        (by rw [Nat.zero_add]; exact hk)
      exact ⟨Nat.find hex + 1, _, ps, ds, hdone⟩
  · intro hm fuel
    exact runLoop_no_marker_outOfFuel orc sub obj fc H hm fuel 0 initLoopState [] []

/-- Witness for C8: a marker-emitting oracle reaches `done`; a marker-free
oracle exhausts a concrete budget of 5 iterations. -/
theorem c8_unbounded_loop_witness :
    (∃ fuel f ps ds, runLoop (fun _ => "The task is complete: yes") (fun _ => ["ok"])
        "obj" none fuel 0 initLoopState [] [] = LoopOutcome.done f ps ds) ∧
    (∃ ps ds st, runLoop (fun _ => "step") (fun _ => ["ok"]) "obj" none 5 0
        initLoopState [] [] = LoopOutcome.outOfFuel ps ds st) :=
  ⟨(c8_unbounded_loop (fun _ => "The task is complete: yes") (fun _ => ["ok"]) "obj" none
      (fun _ => ⟨"ok", rfl, by decide⟩)).1.mpr ⟨0, by decide⟩,
   (c8_unbounded_loop (fun _ => "step") (fun _ => ["ok"]) "obj" none
      (fun _ => ⟨"ok", rfl, by decide⟩)).2 (fun _ => by decide) 5⟩

/-! ## Claim C3 -/

/-- C3 counterexample: the claim says seed content is attached only to the
sub-task instruction text and not to the orchestrator prompt.  In the code
`generate_ollama_prompt` appends `"\nFile content:\n"` plus the file content
to the orchestrator request whenever its `file_content` argument is truthy,
and the loop passes the module-level file content on the first iteration:
the very first orchestrator prompt of this concrete run contains the seed. -/
theorem c3_seed_in_orchestrator_prompt_counterexample :
    (runLoop (fun _ => "r") (fun _ => ["ok"]) "o" (some "SEED") 1 0
        initLoopState [] []).orcPrompts' = [generate_ollama_prompt "o" (some "SEED") "None"] ∧
    containsSub "File content:\nSEED".data
      (generate_ollama_prompt "o" (some "SEED") "None").data = true :=
  ⟨rfl, by decide⟩

/-- C3 amended: truthy seed content is attached both to the first
orchestrator prompt and to the first dispatched sub-task instruction; every
later orchestrator prompt is built with no file content and every later
dispatched instruction is exactly the orchestrator's response, with nothing
appended — so the seed is attached to exactly the first dispatch even when
the loop runs further iterations. -/
theorem c3_seed_single_use_amended (orc : Nat → String) (sub : Nat → List String)
    (obj : String) (f : String) (fuel : Nat) (hf : f ≠ "") :
    (∀ p, (runLoop orc sub obj (some f) fuel 0 initLoopState [] []).orcPrompts'.head? = some p →
      p = generate_ollama_prompt obj (some f) "None") ∧
    (∀ (j : Nat) (p : String),
      (runLoop orc sub obj (some f) fuel 0 initLoopState [] []).orcPrompts'[j + 1]? = some p →
      ∃ pt, p = generate_ollama_prompt obj none pt) ∧
    (∀ d, (runLoop orc sub obj (some f) fuel 0 initLoopState [] []).dispatches'.head? = some d →
      d = orc 0 ++ "\n\nFile content:\n" ++ f) ∧
    (∀ (j : Nat) (d : String),
      (runLoop orc sub obj (some f) fuel 0 initLoopState [] []).dispatches'[j + 1]? = some d →
      d = orc (j + 1)) := by
  cases fuel with
  | zero =>
    refine ⟨?_, ?_, ?_, ?_⟩
    · intro p h
      simp [runLoop_zero, LoopOutcome.orcPrompts'] at h
    · intro j p h
      simp [runLoop_zero, LoopOutcome.orcPrompts'] at h
    · intro d h
      simp [runLoop_zero, LoopOutcome.dispatches'] at h
    · intro j d h
      simp [runLoop_zero, LoopOutcome.dispatches'] at h
  | succ fuel =>
    have htruthy : pyTruthyOptStr (some f) = true := by
      simp [pyTruthyOptStr, hf]
    have hp0 : generate_ollama_prompt obj
        (if initLoopState.task_exchanges.isEmpty then some f else none)
        (prevResultsText initLoopState) = generate_ollama_prompt obj (some f) "None" := rfl
    cases hm : containsMarker (orc 0) with
    | true =>
      rw [runLoop_succ_marker orc sub obj (some f) fuel 0 initLoopState [] [] hm]
      refine ⟨?_, ?_, ?_, ?_⟩
      · intro p h
        simp only [LoopOutcome.orcPrompts', List.nil_append, List.head?] at h
        rw [hp0] at h
        exact (Option.some.injEq _ _ ▸ h).symm
      · intro j p h
        simp only [LoopOutcome.orcPrompts', List.nil_append] at h
        simp at h
      · intro d h
        simp [LoopOutcome.dispatches'] at h
      · intro j d h
        simp [LoopOutcome.dispatches'] at h
    | false =>
      have hd0 : subTaskPromptOf (orc 0)
          (if initLoopState.task_exchanges.isEmpty then some f
            else initLoopState.file_content_for_haiku) initLoopState.haiku_tasks =
          orc 0 ++ "\n\nFile content:\n" ++ f := by
        show subTaskPromptOf (orc 0) (some f) [] = _
        unfold subTaskPromptOf
        rw [htruthy]
        rfl
      cases hres : haiku_sub_agent (subTaskPromptOf (orc 0)
          (if initLoopState.task_exchanges.isEmpty then some f
            else initLoopState.file_content_for_haiku) initLoopState.haiku_tasks)
          initLoopState.haiku_tasks false (sub 0) with
      | error e =>
        rw [runLoop_succ_stuck orc sub obj (some f) fuel 0 initLoopState [] [] hm e hres]
        refine ⟨?_, ?_, ?_, ?_⟩
        · intro p h
          simp only [LoopOutcome.orcPrompts', List.nil_append, List.head?] at h
          rw [hp0] at h
          exact (Option.some.injEq _ _ ▸ h).symm
        · intro j p h
          simp only [LoopOutcome.orcPrompts', List.nil_append] at h
          simp at h
        · intro d h
          simp only [LoopOutcome.dispatches', List.nil_append, List.head?] at h
          rw [hd0] at h
          exact (Option.some.injEq _ _ ▸ h).symm
        · intro j d h
          simp only [LoopOutcome.dispatches', List.nil_append] at h
          simp at h
      | ok x =>
        obtain ⟨res, rest, evs⟩ := x
        rw [runLoop_succ_continue orc sub obj (some f) fuel 0 initLoopState [] [] hm
          res rest evs hres]
        have hest := runLoop_established orc sub obj (some f) fuel 1
          { task_exchanges := initLoopState.task_exchanges ++
              [(subTaskPromptOf (orc 0)
                (if initLoopState.task_exchanges.isEmpty then some f
                  else initLoopState.file_content_for_haiku) initLoopState.haiku_tasks, res)],
            haiku_tasks := initLoopState.haiku_tasks ++
              [⟨subTaskPromptOf (orc 0)
                (if initLoopState.task_exchanges.isEmpty then some f
                  else initLoopState.file_content_for_haiku) initLoopState.haiku_tasks, res⟩],
            file_content_for_haiku := none }
          ([] ++ [generate_ollama_prompt obj
            (if initLoopState.task_exchanges.isEmpty then some f else none)
            (prevResultsText initLoopState)])
          ([] ++ [subTaskPromptOf (orc 0)
            (if initLoopState.task_exchanges.isEmpty then some f
              else initLoopState.file_content_for_haiku) initLoopState.haiku_tasks])
          (by simp) (by simp) (by simp)
        obtain ⟨a, b, hacc1, hacc2⟩ := runLoop_acc orc sub obj (some f) fuel 1
          { task_exchanges := initLoopState.task_exchanges ++
              [(subTaskPromptOf (orc 0)
                (if initLoopState.task_exchanges.isEmpty then some f
                  else initLoopState.file_content_for_haiku) initLoopState.haiku_tasks, res)],
            haiku_tasks := initLoopState.haiku_tasks ++
              [⟨subTaskPromptOf (orc 0)
                (if initLoopState.task_exchanges.isEmpty then some f
                  else initLoopState.file_content_for_haiku) initLoopState.haiku_tasks, res⟩],
            file_content_for_haiku := none }
          ([] ++ [generate_ollama_prompt obj
            (if initLoopState.task_exchanges.isEmpty then some f else none)
            (prevResultsText initLoopState)])
          ([] ++ [subTaskPromptOf (orc 0)
            (if initLoopState.task_exchanges.isEmpty then some f
              else initLoopState.file_content_for_haiku) initLoopState.haiku_tasks])
        refine ⟨?_, ?_, ?_, ?_⟩
        · intro p h
          rw [hacc1] at h
          simp only [List.nil_append, List.cons_append, List.head?] at h
          rw [hp0] at h
          exact (Option.some.injEq _ _ ▸ h).symm
        · intro j p h
          rcases hest.1 (j + 1) p h with h1 | h1
          · simp at h1
          · exact h1
        · intro d h
          rw [hacc2] at h
          simp only [List.nil_append, List.cons_append, List.head?] at h
          rw [hd0] at h
          exact (Option.some.injEq _ _ ▸ h).symm
        · intro j d h
          rcases hest.2 (j + 1) d h with h1 | h1
          · simp at h1
          · exact h1

/-- Witness for the amended C3 on a concrete two-iteration run. -/
theorem c3_seed_single_use_amended_witness :
    (runLoop (fun _ => "r") (fun _ => ["ok"]) "o" (some "SEED") 2 0
        initLoopState [] []).dispatches'.head? =
      some ("r" ++ "\n\nFile content:\n" ++ "SEED") ∧
    (runLoop (fun _ => "r") (fun _ => ["ok"]) "o" (some "SEED") 2 0
        initLoopState [] []).dispatches'[1]? = some "r" ∧
    "r" = (fun _ : Nat => "r") 1 :=
  ⟨rfl, rfl,
   (c3_seed_single_use_amended (fun _ => "r") (fun _ => ["ok"]) "o" "SEED" 2
      (by decide)).2.2.2 0 "r" rfl⟩

/-! ## Materializer lemmas -/

theorem mkdirW_files (w : World) (path : String) : (mkdirW w path).files = w.files := rfl

theorem writeW_dirs (w : World) (path c : String) : (writeW w path c).dirs = w.dirs := rfl

theorem warnMissingW_files (w : World) (key : String) :
    (warnMissingW w key).files = w.files := rfl

theorem warnMissingW_dirs (w : World) (key : String) :
    (warnMissingW w key).dirs = w.dirs := rfl

theorem mkdirW_dirs (w : World) (path p : String) :
    (mkdirW w path).dirs p = (p == path || w.dirs p) := rfl

theorem writeW_files (w : World) (path c p : String) :
    (writeW w path c).files p = (if p == path then some c else w.files p) := rfl

theorem walkEntries_files (code_blocks : List (String × String)) :
    ∀ (es : List (String × PyJson)) (current_path : String) (w : World) (p : String),
      (walkEntries code_blocks es current_path w).files p =
        match lastWriteEntries code_blocks es current_path p with
        | some c => some c
        | none => w.files p := by
  intro es current_path w
  induction es, current_path, w using walkEntries.induct code_blocks with
  | case1 current_path w =>
    intro p
    simp [walkEntries, lastWriteEntries]
  | case2 key rest current_path w path entries ihA ihB ihRest =>
    intro p
    have hpath : path = osJoin current_path key := rfl
    rw [hpath] at ihRest
    cases h1 : lastWriteEntries code_blocks rest current_path p with
    | some c =>
      simp only [walkEntries, lastWriteEntries, ihRest, h1]
    | none =>
      cases h2 : lastWriteEntries code_blocks entries (osJoin current_path key) p with
      | some c =>
        simp only [walkEntries, lastWriteEntries, ihRest, ihB, h1, h2]
      | none =>
        simp only [walkEntries, lastWriteEntries, ihRest, ihB, h1, h2, mkdirW_files]
  | case3 key value rest current_path w path s hfound hs hnobj ih =>
    intro p
    have hpath : path = osJoin current_path key := rfl
    rw [hpath] at ih
    have hval : (match value with
        | PyJson.obj sub => lastWriteEntries code_blocks sub (osJoin current_path key) p
        | _ => match firstCode code_blocks key with
          | some code_content => if code_content ≠ "" then
              (if osJoin current_path key == p then some code_content else none) else none
          | none => none) =
        (if osJoin current_path key == p then some s else none) := by
      cases value with
      | obj sub => exact absurd rfl (hnobj sub)
      | null => simp [hfound, hs]
      | bool b => simp [hfound, hs]
      | num n => simp [hfound, hs]
      | str t => simp [hfound, hs]
      | arr l => simp [hfound, hs]
    cases h1 : lastWriteEntries code_blocks rest current_path p with
    | some c =>
      simp only [walkEntries, lastWriteEntries, hfound, if_pos hs, ih, h1]
    | none =>
      simp only [walkEntries, lastWriteEntries, hfound, if_pos hs, ih, h1, hval,
        writeW_files]
      by_cases hpq : osJoin current_path key = p
      · simp [hpq]
      · simp [hpq, Ne.symm hpq]
  | case4 key value rest current_path w s hfound hs hnobj ih =>
    intro p
    have hval : (match value with
        | PyJson.obj sub => lastWriteEntries code_blocks sub (osJoin current_path key) p
        | _ => match firstCode code_blocks key with
          | some code_content => if code_content ≠ "" then
              (if osJoin current_path key == p then some code_content else none) else none
          | none => none) = none := by
      cases value with
      | obj sub => exact absurd rfl (hnobj sub)
      | null => simp [hfound, hs]
      | bool b => simp [hfound, hs]
      | num n => simp [hfound, hs]
      | str t => simp [hfound, hs]
      | arr l => simp [hfound, hs]
    cases h1 : lastWriteEntries code_blocks rest current_path p with
    | some c =>
      simp only [walkEntries, lastWriteEntries, hfound, if_neg hs, ih, h1]
    | none =>
      simp only [walkEntries, lastWriteEntries, hfound, if_neg hs, ih, h1, hval,
        warnMissingW_files]
  | case5 key value rest current_path w hfound hnobj ih =>
    intro p
    have hval : (match value with
        | PyJson.obj sub => lastWriteEntries code_blocks sub (osJoin current_path key) p
        | _ => match firstCode code_blocks key with
          | some code_content => if code_content ≠ "" then
              (if osJoin current_path key == p then some code_content else none) else none
          | none => none) = none := by
      cases value with
      | obj sub => exact absurd rfl (hnobj sub)
      | null => simp [hfound]
      | bool b => simp [hfound]
      | num n => simp [hfound]
      | str t => simp [hfound]
      | arr l => simp [hfound]
    cases h1 : lastWriteEntries code_blocks rest current_path p with
    | some c =>
      simp only [walkEntries, lastWriteEntries, hfound, ih, h1]
    | none =>
      simp only [walkEntries, lastWriteEntries, hfound, ih, h1, hval, warnMissingW_files]

theorem walkEntries_dirs (code_blocks : List (String × String)) :
    ∀ (es : List (String × PyJson)) (current_path : String) (w : World) (p : String),
      (walkEntries code_blocks es current_path w).dirs p =
        (mkdirsEntries code_blocks es current_path p || w.dirs p) := by
  intro es current_path w
  induction es, current_path, w using walkEntries.induct code_blocks with
  | case1 current_path w =>
    intro p
    simp [walkEntries, mkdirsEntries]
  | case2 key rest current_path w path entries ihA ihB ihRest =>
    intro p
    have hpath : path = osJoin current_path key := rfl
    rw [hpath] at ihRest
    simp only [walkEntries, mkdirsEntries, ihRest, ihB, mkdirW_dirs]
    have hbeq : (p == osJoin current_path key) = (osJoin current_path key == p) := by
      by_cases hpq : p = osJoin current_path key
      · rw [hpq]
      · rw [beq_eq_false_iff_ne.mpr hpq, beq_eq_false_iff_ne.mpr (Ne.symm hpq)]
    rw [hbeq]
    cases hb : osJoin current_path key == p <;>
      cases h1 : mkdirsEntries code_blocks rest current_path p <;>
      cases h2 : mkdirsEntries code_blocks entries (osJoin current_path key) p <;>
      simp [hb, h1, h2]
  | case3 key value rest current_path w path s hfound hs hnobj ih =>
    intro p
    have hpath : path = osJoin current_path key := rfl
    rw [hpath] at ih
    have hval : (match value with
        | PyJson.obj sub => osJoin current_path key == p ||
            mkdirsEntries code_blocks sub (osJoin current_path key) p
        | _ => false) = false := by
      cases value with
      | obj sub => exact absurd rfl (hnobj sub)
      | null => rfl
      | bool b => rfl
      | num n => rfl
      | str t => rfl
      | arr l => rfl
    simp only [walkEntries, mkdirsEntries, hfound, if_pos hs, ih, hval, writeW_dirs,
      Bool.false_or]
  | case4 key value rest current_path w s hfound hs hnobj ih =>
    intro p
    have hval : (match value with
        | PyJson.obj sub => osJoin current_path key == p ||
            mkdirsEntries code_blocks sub (osJoin current_path key) p
        | _ => false) = false := by
      cases value with
      | obj sub => exact absurd rfl (hnobj sub)
      | null => rfl
      | bool b => rfl
      | num n => rfl
      | str t => rfl
      | arr l => rfl
    simp only [walkEntries, mkdirsEntries, hfound, if_neg hs, ih, hval, warnMissingW_dirs,
      Bool.false_or]
  | case5 key value rest current_path w hfound hnobj ih =>
    intro p
    have hval : (match value with
        | PyJson.obj sub => osJoin current_path key == p ||
            mkdirsEntries code_blocks sub (osJoin current_path key) p
        | _ => false) = false := by
      cases value with
      | obj sub => exact absurd rfl (hnobj sub)
      | null => rfl
      | bool b => rfl
      | num n => rfl
      | str t => rfl
      | arr l => rfl
    simp only [walkEntries, mkdirsEntries, hfound, ih, hval, warnMissingW_dirs, Bool.false_or]

/-! ## Claim C5 -/

/-- C5 counterexample: the claim says that whenever at least one
(filename, body) pair matches the leaf's key, the body of the first such
pair is written verbatim.  The source guards the write with Python
truthiness (`if code_content:`), so a matching pair whose body is the empty
string falls into the "missing code content" branch instead: nothing is
written to the path and the warning is emitted, although a matching pair
exists. -/
theorem c5_empty_body_counterexample :
    create_folders_and_files "p" (PyJson.obj [("a", PyJson.null)]) [("a", "")] emptyWorld =
      Except.ok (warnMissingW emptyWorld "a") ∧
    firstCode [("a", "")] "a" = some "" ∧
    (warnMissingW emptyWorld "a").files (osJoin "p" "a") = none ∧
    (warnMissingW emptyWorld "a").log = [Event.missingCode "a"] := by
  refine ⟨?_, rfl, rfl, rfl⟩
  simp +decide [create_folders_and_files, walkEntries, firstCode]

/-- C5 amended: for a leaf entry, if the first matching code body is
non-empty it is written verbatim to the joined path and the walk continues
with the remaining entries; if no pair matches or the first matching body is
empty (Python-falsy), the "missing code content" warning is logged, the file
is skipped, and the walk likewise continues with the remaining entries. -/
theorem c5_leaf_write_amended (code_blocks : List (String × String)) (key : String)
    (value : PyJson) (rest : List (String × PyJson)) (current_path : String) (w : World)
    (hleaf : value.isObj = false) :
    (∀ c, firstCode code_blocks key = some c → c ≠ "" →
      walkEntries code_blocks ((key, value) :: rest) current_path w =
        walkEntries code_blocks rest current_path (writeW w (osJoin current_path key) c) ∧
      (writeW w (osJoin current_path key) c).files (osJoin current_path key) = some c) ∧
    (pyTruthyOptStr (firstCode code_blocks key) = false →
      walkEntries code_blocks ((key, value) :: rest) current_path w =
        walkEntries code_blocks rest current_path (warnMissingW w key) ∧
      (warnMissingW w key).log = w.log ++ [Event.missingCode key]) := by
  constructor
  · intro c hc hne
    refine ⟨?_, by simp [writeW_files]⟩
    cases value with
    | obj sub => simp [PyJson.isObj] at hleaf
    | null => simp [walkEntries, hc, hne]
    | bool b => simp [walkEntries, hc, hne]
    | num n => simp [walkEntries, hc, hne]
    | str t => simp [walkEntries, hc, hne]
    | arr l => simp [walkEntries, hc, hne]
  · intro htr
    refine ⟨?_, rfl⟩
    cases hfc : firstCode code_blocks key with
    | none =>
      cases value with
      | obj sub => simp [PyJson.isObj] at hleaf
      | null => simp [walkEntries, hfc]
      | bool b => simp [walkEntries, hfc]
      | num n => simp [walkEntries, hfc]
      | str t => simp [walkEntries, hfc]
      | arr l => simp [walkEntries, hfc]
    | some c =>
      have hcc : c = "" := by
        rw [hfc] at htr
        simpa [pyTruthyOptStr] using htr
      subst hcc
      cases value with
      | obj sub => simp [PyJson.isObj] at hleaf
      | null => simp [walkEntries, hfc]
      | bool b => simp [walkEntries, hfc]
      | num n => simp [walkEntries, hfc]
      | str t => simp [walkEntries, hfc]
      | arr l => simp [walkEntries, hfc]

/-- Witness for the amended C5: one leaf with a non-empty matching body and
one leaf with no matching pair. -/
theorem c5_leaf_write_amended_witness :
    (walkEntries [("a", "x")] [("a", PyJson.null)] "p" emptyWorld =
      walkEntries [("a", "x")] [] "p" (writeW emptyWorld (osJoin "p" "a") "x") ∧
      (writeW emptyWorld (osJoin "p" "a") "x").files (osJoin "p" "a") = some "x") ∧
    (walkEntries [] [("a", PyJson.null)] "p" emptyWorld =
      walkEntries [] [] "p" (warnMissingW emptyWorld "a") ∧
      (warnMissingW emptyWorld "a").log = emptyWorld.log ++ [Event.missingCode "a"]) :=
  ⟨(c5_leaf_write_amended [("a", "x")] "a" PyJson.null [] "p" emptyWorld rfl).1 "x"
      rfl (by decide),
   (c5_leaf_write_amended [] "a" PyJson.null [] "p" emptyWorld rfl).2 rfl⟩

/-! ## Claim C6 -/

/-- C6: when the text between the folder-structure tags fails to decode,
the run reports the parse error together with the offending raw text,
proceeds with the empty tree (so the recursive walk is a no-op on the
filesystem and the run continues), and when the decode succeeds the decoded
value itself becomes the ProjectTree. -/
theorem c6_decode_fallback (e raw : String) (v : PyJson) (current_path : String)
    (code_blocks : List (String × String)) (w : World) :
    folderStructureFromDecode (Except.error e) = PyJson.obj [] ∧
    folderStructureEvents (Except.error e) raw =
      [Event.jsonParseError e, Event.invalidJsonString raw] ∧
    create_folders_and_files current_path (folderStructureFromDecode (Except.error e))
      code_blocks w = Except.ok w ∧
    folderStructureFromDecode (Except.ok v) = v := by
  refine ⟨rfl, rfl, ?_, rfl⟩
  simp [create_folders_and_files, folderStructureFromDecode, walkEntries]

/-! ## Claim C7 -/

/-- C7: materializing the same project name, tree and code bodies twice
from the same starting filesystem yields exactly the file map and directory
map of a single run: directories already present are re-created without
error, every file is overwritten with the identical content, and nothing is
duplicated or deleted. -/
theorem c7_materializer_idempotent (project_name : String) (es : List (String × PyJson))
    (code_blocks : List (String × String)) (w w1 w2 : World)
    (h1 : create_folder_structure project_name (PyJson.obj es) code_blocks w = Except.ok w1)
    (h2 : create_folder_structure project_name (PyJson.obj es) code_blocks w1 = Except.ok w2) :
    w2.files = w1.files ∧ w2.dirs = w1.dirs := by
  have e1 : w1 = walkEntries code_blocks es project_name
      { w with dirs := fun q => q == project_name || w.dirs q,
               log := w.log ++ [Event.createdProjectFolder project_name] } := by
    have := h1
    simp only [create_folder_structure, create_folders_and_files, Except.ok.injEq] at this
    exact this.symm
  have e2 : w2 = walkEntries code_blocks es project_name
      { w1 with dirs := fun q => q == project_name || w1.dirs q,
                log := w1.log ++ [Event.createdProjectFolder project_name] } := by
    have := h2
    simp only [create_folder_structure, create_folders_and_files, Except.ok.injEq] at this
    exact this.symm
  constructor
  · funext p
    simp only [e2, e1, walkEntries_files]
    cases hlw : lastWriteEntries code_blocks es project_name p <;> simp [hlw]
  · funext p
    simp only [e2, e1, walkEntries_dirs]
    cases mkdirsEntries code_blocks es project_name p <;>
      cases p == project_name <;> simp

/-- Witness for C7 on a concrete two-level tree. -/
theorem c7_materializer_idempotent_witness :
    create_folder_structure "proj" sampleTree sampleBlocks emptyWorld = Except.ok sampleOnce ∧
    create_folder_structure "proj" sampleTree sampleBlocks sampleOnce = Except.ok sampleTwice ∧
    sampleTwice.files = sampleOnce.files ∧ sampleTwice.dirs = sampleOnce.dirs :=
  ⟨rfl, rfl,
   (c7_materializer_idempotent "proj" [("a.py", PyJson.null),
      ("src", PyJson.obj [("b.py", PyJson.null)])] sampleBlocks emptyWorld sampleOnce
      sampleTwice rfl rfl).1,
   (c7_materializer_idempotent "proj" [("a.py", PyJson.null),
      ("src", PyJson.obj [("b.py", PyJson.null)])] sampleBlocks emptyWorld sampleOnce
      sampleTwice rfl rfl).2⟩

/-! ## Claim C10 -/

/-- C10: a successfully decoded folder structure that is not a mapping (an
array, string, number, boolean or null) reaches `create_folders_and_files`,
whose first action — iterating `structure.items()` — raises an uncaught
`AttributeError`: the per-entry handlers catch only `OSError`/`IOError`, so
the run aborts. -/
theorem c10_nonmapping_tree_aborts (project_name : String) (v : PyJson)
    (code_blocks : List (String × String)) (w : World) (h : v.isObj = false) :
    create_folder_structure project_name v code_blocks w = Except.error v := by
  cases v with
  | obj entries => simp [PyJson.isObj] at h
  | null => rfl
  | bool b => rfl
  | num n => rfl
  | str s => rfl
  | arr l => rfl

/-- Witness for C10 at a concrete decoded array. -/
theorem c10_nonmapping_tree_aborts_witness :
    create_folder_structure "p" (PyJson.arr []) [] emptyWorld =
      Except.error (PyJson.arr []) :=
  c10_nonmapping_tree_aborts "p" (PyJson.arr []) [] emptyWorld rfl

end Maestro
